import Mathlib

/-!
# Verification of the SlackCheckIns check-in analysis agent

Shallow embedding of the analysis core of the repository:

* `src/utils/checkinQuality.js` — the heuristic quality classifier;
* `src/agent/checkinAgent.js` — the `CheckInAgent` class: roster
  reconciliation, time-window aggregation, blocker extraction, the
  natural-language question interpreter, and the dashboard generator.

Modelling conventions:

* Text is modelled as `List Char`; labels, identifiers and formatted dates as
  `String`.  JavaScript string values that the source only tests for
  truthiness are modelled as `String` with `""` playing the role of the falsy
  values (`undefined` / `""`); optional fields are `Option`s.
* Instants are `Nat` milliseconds since the Unix epoch (the source normalises
  all timestamps through `dayjs`; the model covers the timeline from
  1970-01-01 onwards, which contains every Slack timestamp).
* Fractional arithmetic (`score * 0.25`, averages, `toFixed(2)`) is carried
  out in `ℚ`; `Number(x.toFixed(2))` is modelled as exact rounding of the
  rational value to two decimals, half away from zero for the non-negative
  values that occur here.
* `dayjs()` (the current clock) is threaded explicitly as a `today : Nat`
  parameter of the operations that consult it.
* The calendar functions implement the proleptic Gregorian calendar used by
  `dayjs`/JS `Date` (UTC), expressed by direct recursion over years and
  months from the 1970 epoch.
-/

set_option maxHeartbeats 1000000

namespace SlackCheckins

/-! ## Characters and strings -/

/-- The characters of a string (JS strings are processed character-wise). -/
def chars (s : String) : List Char := s.data

/-- ASCII lower-casing of one character, as `String.prototype.toLowerCase`
acts on the ASCII range (all keywords and labels in the source are ASCII). -/
def lowerChar (c : Char) : Char :=
  if 'A' ≤ c && c ≤ 'Z' then Char.ofNat (c.toNat + 32) else c

/-- `text.toLowerCase()`. -/
def lowerChars (l : List Char) : List Char := l.map lowerChar

/-- Does `pat` occur at the very start of the text? -/
def startsWithChars : List Char → List Char → Bool
  | [], _ => true
  | _ :: _, [] => false
  | p :: ps, c :: cs => p == c && startsWithChars ps cs

/-- `text.includes(pat)`: substring occurrence anywhere in the text. -/
def containsSub (pat : List Char) : List Char → Bool
  | [] => startsWithChars pat []
  | c :: cs => startsWithChars pat (c :: cs) || containsSub pat cs

/-- ASCII whitespace, the characters `\s` matches in the inputs considered. -/
def isWsChar (c : Char) : Bool :=
  c == ' ' || c == '\t' || c == '\n' || c == '\r' || c == '\x0b' || c == '\x0c'

/-- `String.prototype.trim()`. -/
def trimChars (l : List Char) : List Char :=
  ((l.dropWhile isWsChar).reverse.dropWhile isWsChar).reverse

/-! ## Quality classifier (`src/utils/checkinQuality.js`) -/

/-- Helper for `countWords`: the flag records whether the previous character
was part of a word (a non-whitespace run). -/
def countWordsAux : Bool → List Char → Nat
  | _, [] => 0
  | inWord, c :: cs =>
    if isWsChar c then countWordsAux false cs
    else (if inWord then 0 else 1) + countWordsAux true cs

/-- `countWords`: `text.trim().split(/\s+/).filter(Boolean).length`, i.e. the
number of maximal non-whitespace runs. -/
def countWords (t : List Char) : Nat := countWordsAux false t

/-- ASCII decimal digit. -/
def isDigitCh (c : Char) : Bool := '0' ≤ c && c ≤ '9'

/-- A regex word character (`\w` = `[A-Za-z0-9_]`). -/
def isWordCh (c : Char) : Bool :=
  isDigitCh c || ('a' ≤ c && c ≤ 'z') || ('A' ≤ c && c ≤ 'Z') || c == '_'

/-- Helper counting matches of `\b\d+\b`.  `inRun` records that we are inside
a digit run whose left boundary condition held; `prevWord` records whether the
previous character was a word character. -/
def countDigitTokensAux : Bool → Bool → List Char → Nat
  | inRun, _, [] => if inRun then 1 else 0
  | inRun, prevWord, c :: cs =>
    if isDigitCh c then
      if inRun then countDigitTokensAux true true cs
      else if prevWord then countDigitTokensAux false true cs
      else countDigitTokensAux true true cs
    else if isWordCh c then countDigitTokensAux false true cs
    else (if inRun then 1 else 0) + countDigitTokensAux false false cs

/-- `text.match(/\b\d+\b/g)` match count: maximal digit runs delimited by word
boundaries on both sides. -/
def countDigitTokens (t : List Char) : Nat := countDigitTokensAux false false t

/-- `text.match(/[\n\r]-|\*/g)` match count: each newline (or carriage
return) immediately followed by `-`, and each asterisk. -/
def countBullets : List Char → Nat
  | [] => 0
  | [c] => if c == '*' then 1 else 0
  | c :: d :: rest =>
    if c == '*' then 1 + countBullets (d :: rest)
    else if (c == '\n' || c == '\r') && d == '-' then 1 + countBullets rest
    else countBullets (d :: rest)

/-- `KEYWORD_GROUPS.progress`. -/
def progressKeywords : List (List Char) :=
  [chars "progress", chars "completed", chars "finished", chars "shipped",
   chars "done", chars "achieved"]

/-- `KEYWORD_GROUPS.plans`. -/
def plansKeywords : List (List Char) :=
  [chars "plan", chars "next", chars "today", chars "tomorrow", chars "focus"]

/-- `KEYWORD_GROUPS.blockers` (the classifier's blocker category). -/
def blockersKeywords : List (List Char) :=
  [chars "blocker", chars "stuck", chars "issue", chars "problem",
   chars "waiting", chars "help"]

/-- `keywords.some((keyword) => lower.includes(keyword))`. -/
def groupPresent (lower : List Char) (kws : List (List Char)) : Bool :=
  kws.any (fun k => containsSub k lower)

/-- `scoreCompleteness`: one point per keyword group with at least one
(case-insensitive) keyword occurrence. -/
def scoreCompleteness (t : List Char) : Nat :=
  (if groupPresent (lowerChars t) progressKeywords then 1 else 0) +
  (if groupPresent (lowerChars t) plansKeywords then 1 else 0) +
  (if groupPresent (lowerChars t) blockersKeywords then 1 else 0)

/-- `scoreSpecificity`: `Math.min(numbers.length + bulletIndicators, 3)`. -/
def scoreSpecificity (t : List Char) : Nat :=
  min (countDigitTokens t + countBullets t) 3

/-- `calculateQualityScore`: `0` for empty (falsy) text, otherwise
`completeness * 15 + specificity * 10 + Math.min(wordCount, 120) * 0.25`. -/
def calculateQualityScore (t : List Char) : ℚ :=
  if t = [] then 0
  else (scoreCompleteness t : ℚ) * 15 + (scoreSpecificity t : ℚ) * 10 +
    ((min (countWords t) 120 : Nat) : ℚ) * (1 / 4)

/-- `classifyCheckinQuality`: thresholds 80 (Strong) and 40 (Medium). -/
def classifyCheckinQuality (t : List Char) : String :=
  if (80 : ℚ) ≤ calculateQualityScore t then "Strong"
  else if (40 : ℚ) ≤ calculateQualityScore t then "Medium"
  else "Weak"

/-- Spec-side score formula, following the wording of §4.1 of the spec:
`15 × (count of keyword-group categories present) + 10 × min(3, digit-tokens
+ bullet markers) + 0.25 × min(120, word count)`, with empty/missing text
scoring `0`.  Stated for comparison with `calculateQualityScore`. -/
def specQualityScore (t : List Char) : ℚ :=
  if t = [] then 0
  else 15 * (scoreCompleteness t : ℚ) +
    10 * ((min 3 (countDigitTokens t + countBullets t) : Nat) : ℚ) +
    (1 / 4) * ((min 120 (countWords t) : Nat) : ℚ)

/-- Spec-side labelling: score ≥ 80 → Strong, score ≥ 40 → Medium, else
Weak. -/
def specQualityLabel (score : ℚ) : String :=
  if 80 ≤ score then "Strong" else if 40 ≤ score then "Medium" else "Weak"

/-- Rank of a label in the order Weak < Medium < Strong. -/
def labelRank (q : String) : Nat :=
  if q = "Strong" then 3 else if q = "Medium" then 2 else 1

/-! ### Classifier lemmas -/

theorem spec_score_eq_code_score (t : List Char) :
    specQualityScore t = calculateQualityScore t := by
  unfold specQualityScore calculateQualityScore scoreSpecificity
  split
  · rfl
  · rw [Nat.min_comm 3, Nat.min_comm 120]
    ring

theorem calculateQualityScore_nonneg (t : List Char) :
    0 ≤ calculateQualityScore t := by
  unfold calculateQualityScore
  split
  · exact le_refl 0
  · positivity

theorem classify_rank_mono {a b : List Char}
    (h : calculateQualityScore b ≤ calculateQualityScore a) :
    labelRank (classifyCheckinQuality b) ≤ labelRank (classifyCheckinQuality a) := by
  unfold classifyCheckinQuality
  split_ifs <;> simp [labelRank] <;> linarith

theorem calculateQualityScore_mono (a b : List Char)
    (h1 : scoreCompleteness b ≤ scoreCompleteness a)
    (h2 : scoreSpecificity b ≤ scoreSpecificity a)
    (h3 : min (countWords b) 120 ≤ min (countWords a) 120) :
    calculateQualityScore b ≤ calculateQualityScore a := by
  unfold calculateQualityScore
  split_ifs with hb ha ha'
  · exact le_refl 0
  · have := calculateQualityScore_nonneg a
    unfold calculateQualityScore at this
    rw [if_neg ha] at this
    exact this
  · rw [ha'] at h1 h2 h3
    have e1 : scoreCompleteness b = 0 := Nat.le_zero.mp h1
    have e2 : scoreSpecificity b = 0 := Nat.le_zero.mp h2
    have e3 : min (countWords b) 120 = 0 := Nat.le_zero.mp h3
    rw [e1, e2, e3]
    norm_num
  · have c1 : (scoreCompleteness b : ℚ) ≤ (scoreCompleteness a : ℚ) := by
      exact_mod_cast h1
    have c2 : (scoreSpecificity b : ℚ) ≤ (scoreSpecificity a : ℚ) := by
      exact_mod_cast h2
    have c3 : ((min (countWords b) 120 : Nat) : ℚ) ≤ ((min (countWords a) 120 : Nat) : ℚ) := by
      exact_mod_cast h3
    linarith

/-! ### Claim theorems for the classifier -/

/-- **C2.** For every text, the quality classifier returns the label obtained
by applying the spec's thresholds (≥ 80 → Strong, ≥ 40 → Medium, else Weak)
to the spec's score formula 15 × categories + 10 × min(3, digit-tokens +
bullet markers) + 0.25 × min(120, word count); and for empty text the score
is 0 and the label is Weak. -/
theorem classifier_matches_spec_formula :
    ∀ t : List Char,
      classifyCheckinQuality t = specQualityLabel (specQualityScore t) ∧
      calculateQualityScore [] = 0 ∧ classifyCheckinQuality [] = "Weak" := by
  intro t
  refine ⟨?_, rfl, by decide⟩
  rw [spec_score_eq_code_score]
  unfold classifyCheckinQuality specQualityLabel
  rfl

/-- **C9.** The quality label is monotone non-decreasing in the three score
components: if one text's category count, capped numeric/bullet count and
capped word count each dominate another's, its label is at least as high in
the order Weak < Medium < Strong. -/
theorem quality_label_monotone (a b : List Char)
    (h1 : scoreCompleteness b ≤ scoreCompleteness a)
    (h2 : scoreSpecificity b ≤ scoreSpecificity a)
    (h3 : min (countWords b) 120 ≤ min (countWords a) 120) :
    labelRank (classifyCheckinQuality b) ≤ labelRank (classifyCheckinQuality a) :=
  classify_rank_mono (calculateQualityScore_mono a b h1 h2 h3)

/-- Witness for C9 at the concrete texts "hi" and
"completed 3 tasks, plan for today ready". -/
theorem quality_label_monotone_witness :
    (scoreCompleteness (chars "hi") ≤
        scoreCompleteness (chars "completed 3 tasks, plan for today ready") ∧
      scoreSpecificity (chars "hi") ≤
        scoreSpecificity (chars "completed 3 tasks, plan for today ready") ∧
      min (countWords (chars "hi")) 120 ≤
        min (countWords (chars "completed 3 tasks, plan for today ready")) 120) ∧
    labelRank (classifyCheckinQuality (chars "hi")) ≤
      labelRank (classifyCheckinQuality (chars "completed 3 tasks, plan for today ready")) :=
  ⟨⟨by decide, by decide, by decide⟩,
    quality_label_monotone (chars "completed 3 tasks, plan for today ready")
      (chars "hi") (by decide) (by decide) (by decide)⟩

/-! ## Calendar arithmetic (the `dayjs` operations used by the agent)

Instants are `Nat` milliseconds since 1970-01-01T00:00:00 UTC; the proleptic
Gregorian calendar is expressed by recursion over years and months from the
epoch. -/

def msPerDay : Nat := 86400000

def isLeapYear (y : Nat) : Bool :=
  (y % 4 == 0 && y % 100 != 0) || y % 400 == 0

def daysInYear (y : Nat) : Nat := if isLeapYear y then 366 else 365

def daysInMonth (y m : Nat) : Nat :=
  if m = 2 then (if isLeapYear y then 29 else 28)
  else if m = 4 ∨ m = 6 ∨ m = 9 ∨ m = 11 then 30
  else 31

/-- Days contained in the years `[1970, 1970 + k)`. -/
def daysFromEpochYears : Nat → Nat
  | 0 => 0
  | k + 1 => daysFromEpochYears k + daysInYear (1970 + k)

/-- Days from 1970-01-01 to January 1 of year `y` (0 for years up to 1970). -/
def daysBeforeYear (y : Nat) : Nat := daysFromEpochYears (y - 1970)

/-- Days from January 1 of year `y` to the first of month `m`. -/
def daysBeforeMonth (y m : Nat) : Nat :=
  match m with
  | 0 => 0
  | 1 => 0
  | Nat.succ k => daysBeforeMonth y k + daysInMonth y k

/-- Day number (days since the epoch) of the civil date `y-m-d`. -/
def daysFromCivil (y m d : Nat) : Nat :=
  daysBeforeYear y + daysBeforeMonth y m + (d - 1)

theorem daysInYear_pos (y : Nat) : 0 < daysInYear y := by
  unfold daysInYear
  split <;> omega

/-- Structural helper for `yearAndDay`; the fuel bounds the number of year
steps and is chosen large enough (each step consumes at least 365 days) that
it is never exhausted. -/
def yearAndDayAux : Nat → Nat → Nat → Nat × Nat
  | 0, y, n => (y, n)
  | fuel + 1, y, n =>
    if daysInYear y ≤ n then yearAndDayAux fuel (y + 1) (n - daysInYear y)
    else (y, n)

/-- Locate the year containing day number `n`, starting the search at year
`y`; returns the year and the day-of-year. -/
def yearAndDay (y n : Nat) : Nat × Nat := yearAndDayAux (n + 1) y n

/-- Structural helper for `monthAndDay`; at most eleven steps are taken from
month 1, so fuel 12 is never exhausted. -/
def monthAndDayAux : Nat → Nat → Nat → Nat → Nat × Nat
  | 0, _, m, n => (m, n)
  | fuel + 1, y, m, n =>
    if 12 ≤ m then (m, n)
    else if daysInMonth y m ≤ n then monthAndDayAux fuel y (m + 1) (n - daysInMonth y m)
    else (m, n)

/-- Locate the month containing day-of-year `n` (0-based), starting at month
`m`; returns the month and the 0-based day-of-month. -/
def monthAndDay (y m n : Nat) : Nat × Nat := monthAndDayAux 12 y m n

/-- Civil date `(year, month, day)` of a day number. -/
def civilFromDays (n : Nat) : Nat × Nat × Nat :=
  let yd := yearAndDay 1970 n
  let md := monthAndDay yd.1 1 yd.2
  (yd.1, md.1, md.2 + 1)

/-- `dayjs(t)`'s day number: `t` in days, rounding down. -/
def dayNumber (t : Nat) : Nat := t / msPerDay

/-- `dayjs(t).startOf('day')`. -/
def startOfDayMs (t : Nat) : Nat := dayNumber t * msPerDay

/-- `dayjs(t).endOf('day')` (23:59:59.999). -/
def endOfDayMs (t : Nat) : Nat := startOfDayMs t + msPerDay - 1

/-- `dayjs(t).startOf('month')`. -/
def startOfMonthMs (t : Nat) : Nat :=
  let c := civilFromDays (dayNumber t)
  daysFromCivil c.1 c.2.1 1 * msPerDay

/-- The length in days of the calendar month containing `t`. -/
def monthLengthOf (t : Nat) : Nat :=
  let c := civilFromDays (dayNumber t)
  daysInMonth c.1 c.2.1

/-- `dayjs(t).endOf('month')`: last millisecond of the month containing
`t`. -/
def endOfMonthMs (t : Nat) : Nat :=
  startOfMonthMs t + monthLengthOf t * msPerDay - 1

/-- `dayjs(e).diff(s, 'day')` for `s ≤ e`: whole days between the instants,
truncated. -/
def diffDays (e s : Nat) : Nat := (e - s) / msPerDay

/-- Index of the day of week with Monday = 0 (1970-01-01 was a Thursday). -/
def mondayIndex (n : Nat) : Nat := (n + 3) % 7

/-- `dayjs(t).startOf('isoWeek')`: the preceding (or same) Monday, midnight. -/
def startOfIsoWeekMs (t : Nat) : Nat :=
  (dayNumber t - mondayIndex (dayNumber t)) * msPerDay

/-- Decimal digits of a natural number as characters. -/
def natDigits (n : Nat) : List Char := (toString n).data

/-- Zero-pad a digit list on the left to width `w`. -/
def padLeft (w : Nat) (l : List Char) : List Char :=
  List.replicate (w - l.length) '0' ++ l

/-- `dayjs(t).format('YYYY-MM-DD')`. -/
def formatIsoDate (t : Nat) : String :=
  let c := civilFromDays (dayNumber t)
  String.mk (padLeft 4 (natDigits c.1) ++ ['-'] ++ padLeft 2 (natDigits c.2.1)
    ++ ['-'] ++ padLeft 2 (natDigits c.2.2))

/-- English month names, for `dayjs(t).format('MMMM YYYY')`. -/
def monthName (m : Nat) : String :=
  match m with
  | 1 => "January" | 2 => "February" | 3 => "March" | 4 => "April"
  | 5 => "May" | 6 => "June" | 7 => "July" | 8 => "August"
  | 9 => "September" | 10 => "October" | 11 => "November" | _ => "December"

/-- `dayjs(t).format('MMMM YYYY')`. -/
def formatMonthYear (t : Nat) : String :=
  let c := civilFromDays (dayNumber t)
  monthName c.2.1 ++ " " ++ String.mk (padLeft 4 (natDigits c.1))

/-! ## Data model (`src/agent/checkinAgent.js`) -/

/-- A reconciled student.  The `name` is `Option String` because the source
can produce `name: undefined` (a roster object entry none of whose
`name`/`display_name`/`real_name`/`id` fields is truthy); `getUserByName`
later dereferences it.  The `id` is only ever compared (`Map` keys,
`===`), never dereferenced, so `""` models the falsy values there. -/
structure Student where
  id : String
  name : Option String
deriving DecidableEq, Repr

/-- A roster input entry: a bare string, an object (field values `String`,
with `""` modelling the falsy values the source tests for), or an invalid
entry (JS `null` / non-object, non-string values). -/
inductive RosterInput where
  | strEntry (s : String)
  | objEntry (id user_id email name display_name real_name : String)
  | badEntry
deriving DecidableEq, Repr

/-- First truthy value of a chain `a || b || ...`, with `""` as fallback
(modelling JS `undefined`; used for ids, which are only compared). -/
def firstTruthy (l : List String) : String := (l.find? (· != "")).getD ""

/-- First truthy value of a chain `a || b || ...`, `none` when every link is
falsy — the JS `undefined` that ends such a chain of absent fields. -/
def optFirstTruthy (l : List String) : Option String := l.find? (· != "")

/-- `normalizeRoster`: strings become `{id: s, name: s}`; objects pick
`id || user_id || email || name` for the id and
`name || display_name || real_name || id` for the name (yielding an
undefined name when all four are falsy); invalid entries are dropped. -/
def normalizeRoster (roster : List RosterInput) : List Student :=
  roster.filterMap fun entry =>
    match entry with
    | .strEntry s => some { id := s, name := some s }
    | .objEntry id uid email nm dn rn =>
        some { id := firstTruthy [id, uid, email, nm],
               name := optFirstTruthy [nm, dn, rn, id] }
    | .badEntry => none

/-- A check-in record held by the agent (quality already normalized). -/
structure Checkin where
  message_id : String
  user_id : String
  user_name : String
  timestamp : Nat
  message_content : List Char
  quality : String
deriving DecidableEq, Repr

/-- A check-in record as passed to the constructor: the quality label may be
absent. -/
structure RawCheckin where
  message_id : String
  user_id : String
  user_name : String
  timestamp : Nat
  message_content : List Char
  quality : Option String
deriving DecidableEq, Repr

/-- `normalizeQuality`: a truthy pre-set label passes through unchanged,
otherwise the classifier runs on the content. -/
def normalizeQuality (quality : Option String) (content : List Char) : String :=
  match quality with
  | some q => if q ≠ "" then q else classifyCheckinQuality content
  | none => classifyCheckinQuality content

structure Agent where
  checkins : List Checkin
  roster : List Student
deriving DecidableEq, Repr

/-- The `CheckInAgent` constructor. -/
def mkAgent (checkins : List RawCheckin) (roster : List RosterInput) : Agent :=
  { checkins := checkins.map fun c =>
      { message_id := c.message_id, user_id := c.user_id,
        user_name := c.user_name, timestamp := c.timestamp,
        message_content := c.message_content,
        quality := normalizeQuality c.quality c.message_content },
    roster := normalizeRoster roster }

/-- The student a check-in induces: `{id: user_id, name: user_name ||
user_id}`.  The check-in fields are strings in this model (the records the
agent receives carry string `user_id`/`user_name`), so the induced name is
always defined. -/
def checkinStudent (c : Checkin) : Student :=
  { id := c.user_id,
    name := some (if c.user_name ≠ "" then c.user_name else c.user_id) }

/-- Keep the first entry for each id, preserving order (a JS `Map` populated
with `if (!map.has(key)) map.set(key, v)`). -/
def dedupeFirstById (seen : List String) : List Student → List Student
  | [] => []
  | x :: xs =>
    if seen.contains x.id then dedupeFirstById seen xs
    else x :: dedupeFirstById (x.id :: seen) xs

/-- `uniqueUsersFromCheckins`. -/
def uniqueUsersFromCheckins (cs : List Checkin) : List Student :=
  dedupeFirstById [] (cs.map checkinStudent)

/-- `getAllStudents`: roster entries first, then users inferred from
check-ins, first entry per id wins. -/
def getAllStudents (a : Agent) : List Student :=
  dedupeFirstById [] (a.roster ++ uniqueUsersFromCheckins a.checkins)

/-- `getCheckinsByDateRange`: inclusive timestamp filter
(`isSameOrAfter(start) && isSameOrBefore(end)`). -/
def getCheckinsByDateRange (a : Agent) (start stop : Nat) : List Checkin :=
  a.checkins.filter fun c => start ≤ c.timestamp && c.timestamp ≤ stop

/-- `getCheckinsForUser` with a window (every call site in the source passes
one, and `dayjs` window objects are always truthy). -/
def getCheckinsForUser (a : Agent) (userId : String) (start stop : Nat) :
    List Checkin :=
  (getCheckinsByDateRange a start stop).filter fun c => c.user_id == userId

/-- The TypeError message raised by `user.name.toLowerCase()` on an
undefined name. -/
def nameTypeError : String :=
  "TypeError: Cannot read properties of undefined (reading \x27toLowerCase\x27)"

/-- The `find` scan of `getUserByName`: the predicate
`user.name.toLowerCase() === normalizedName` is evaluated in order and
throws (modelled as `.error`) on a student whose name is undefined before a
match is found. -/
def findUserByNameScan (normalized : List Char) :
    List Student → Except String (Option Student)
  | [] => .ok none
  | u :: us =>
    match u.name with
    | none => .error nameTypeError
    | some nm =>
      if lowerChars (chars nm) == normalized then .ok (some u)
      else findUserByNameScan normalized us

/-- `getUserByName`: first student whose lower-cased name equals the
trimmed, lower-cased query; throws when it dereferences an undefined
name. -/
def getUserByName (a : Agent) (name : String) :
    Except String (Option Student) :=
  findUserByNameScan (lowerChars (trimChars (chars name))) (getAllStudents a)

/-- The property names `QUALITY_TO_SCORE` inherits from
`Object.prototype`: looking any of them up on the object literal returns a
truthy non-number (a function, or the prototype object for `__proto__`)
instead of `undefined`. -/
def protoKeys : List String :=
  ["constructor", "hasOwnProperty", "isPrototypeOf", "propertyIsEnumerable",
   "toLocaleString", "toString", "valueOf", "__defineGetter__",
   "__defineSetter__", "__lookupGetter__", "__lookupSetter__", "__proto__"]

/-- The value of `QUALITY_TO_SCORE[q] || 0` as the reduce sees it: a number
for the three own keys and (via `|| 0`) for absent keys, and a truthy
non-number inherited from `Object.prototype` for its property names. -/
inductive LookupVal where
  | num (n : Nat)
  | nonNumber
deriving DecidableEq, Repr

/-- `QUALITY_TO_SCORE[q] || 0`, including the prototype-chain lookups. -/
def qualityLookup (q : String) : LookupVal :=
  if q = "Strong" then .num 3
  else if q = "Medium" then .num 2
  else if q = "Weak" then .num 1
  else if protoKeys.contains q then .nonNumber
  else .num 0

/-- `acc + v` in JS: numeric addition while both operands are numbers; once
a truthy non-number is added the accumulator is a non-numeric string (e.g.
`"0function toString() { [native code] }"`) and stays non-numeric.  `some`
is the numeric accumulator, `none` the non-numeric string. -/
def jsAdd : Option Nat → LookupVal → Option Nat
  | some acc, .num n => some (acc + n)
  | _, _ => none

/-- `entries.reduce((acc, item) => acc + (QUALITY_TO_SCORE[item.quality] ||
0), 0)`. -/
def sumQualityScoresJs (entries : List Checkin) : Option Nat :=
  entries.foldl (fun acc c => jsAdd acc (qualityLookup c.quality)) (some 0)

/-- A JS number that is either NaN (the result of dividing a non-numeric
string) or an exact rational. -/
inductive JsNum where
  | nan
  | num (q : ℚ)
deriving DecidableEq, Repr

/-- `Number(x.toFixed(2))` for the non-negative rationals produced here:
rounding to two decimal places, half up. -/
def round2 (x : ℚ) : ℚ := (⌊x * 100 + 1 / 2⌋ : ℚ) / 100

structure DailySummary where
  date : String
  message : List Char
  quality : String
  timestamp : Nat
deriving DecidableEq, Repr

/-- Head of the stable ascending-by-timestamp sort: the first entry with
minimal timestamp. -/
def earliestEntry (x : Checkin) (xs : List Checkin) : Checkin :=
  xs.foldl (fun best c => if c.timestamp < best.timestamp then c else best) x

/-- `summarizeDaily`. -/
def summarizeDaily (a : Agent) (userId : String) (date : Nat) :
    Option DailySummary :=
  let dayStart := startOfDayMs date
  let dayEnd := endOfDayMs date
  match getCheckinsForUser a userId dayStart dayEnd with
  | [] => none
  | x :: xs =>
    let entry := earliestEntry x xs
    some { date := formatIsoDate dayStart, message := entry.message_content,
           quality := entry.quality, timestamp := entry.timestamp }

/-- A range summary; the source's `end` field is named `stop` (`end` is a
Lean keyword). -/
structure RangeSummary where
  start : String
  stop : String
  total_checkins : Nat
  average_quality_score : JsNum
  quality : String
  entries : List Checkin
deriving DecidableEq, Repr

/-- The window-level label: `avg >= 2.5 ? 'Strong' : avg >= 1.75 ? 'Medium'
: 'Weak'`. -/
def windowQualityLabel (avg : ℚ) : String :=
  if (5 / 2 : ℚ) ≤ avg then "Strong"
  else if (7 / 4 : ℚ) ≤ avg then "Medium" else "Weak"

/-- `Number(x.toFixed(2))` on a JS number: NaN stays NaN
(`Number("NaN")`), a rational rounds to two decimals. -/
def jsRound2 : JsNum → JsNum
  | .nan => .nan
  | .num q => .num (round2 q)

/-- The window label on a JS number: both `>=` comparisons are false on
NaN, giving Weak. -/
def jsWindowQualityLabel : JsNum → String
  | .nan => "Weak"
  | .num q => windowQualityLabel q

/-- `summarizeRange`.  `score / entries.length` is NaN exactly when the
reduce left a non-numeric accumulator. -/
def summarizeRange (a : Agent) (userId : String) (start stop : Nat) :
    Option RangeSummary :=
  let entries := getCheckinsForUser a userId start stop
  if entries = [] then none
  else
    let averageScore : JsNum :=
      match sumQualityScoresJs entries with
      | some s => .num ((s : ℚ) / entries.length)
      | none => .nan
    some { start := formatIsoDate start, stop := formatIsoDate stop,
           total_checkins := entries.length,
           average_quality_score := jsRound2 averageScore,
           quality := jsWindowQualityLabel averageScore,
           entries := entries }

structure BlockerMention where
  user_id : String
  user_name : String
  timestamp : Nat
  message : List Char
deriving DecidableEq, Repr

/-- The extractor's keyword list (distinct from the classifier's blocker
category). -/
def blockerKeywords : List (List Char) :=
  [chars "blocker", chars "blocked", chars "stuck", chars "issue",
   chars "problem", chars "waiting", chars "delay"]

/-- `extractBlockers`: every entry whose lower-cased text contains a blocker
keyword, in input order. -/
def extractBlockers (entries : List Checkin) : List BlockerMention :=
  (entries.filter fun e =>
      blockerKeywords.any fun k => containsSub k (lowerChars e.message_content)).map
    fun e => { user_id := e.user_id, user_name := e.user_name,
               timestamp := e.timestamp, message := e.message_content }

/-- `{...summary, blockers}` of `summarizeWeek`. -/
structure WeekSummary where
  summary : RangeSummary
  blockers : List BlockerMention
deriving DecidableEq, Repr

/-- `summarizeWeek`: window = start of the given day through the end of the
sixth following day. -/
def summarizeWeek (a : Agent) (userId : String) (weekStart : Nat) :
    Option WeekSummary :=
  let start := startOfDayMs weekStart
  let stop := endOfDayMs (start + 6 * msPerDay)
  match summarizeRange a userId start stop with
  | none => none
  | some s => some { summary := s, blockers := extractBlockers s.entries }

structure Consistency where
  days_checked_in : Nat
  period_length : Nat
  percentage : ℚ
deriving DecidableEq, Repr

/-- `calculateConsistency`: distinct calendar days with a check-in over the
window length in days (inclusive). -/
def calculateConsistency (a : Agent) (userId : String) (start stop : Nat) :
    Consistency :=
  let entries := getCheckinsForUser a userId start stop
  if entries = [] then
    { days_checked_in := 0, period_length := diffDays stop start + 1,
      percentage := 0 }
  else
    let uniqueDays := (entries.map fun e => formatIsoDate e.timestamp).dedup
    let totalDays := diffDays stop start + 1
    { days_checked_in := uniqueDays.length, period_length := totalDays,
      percentage := round2 ((uniqueDays.length : ℚ) / totalDays * 100) }

/-- `{...summary, consistency, blockers}` of `summarizeMonth`. -/
structure MonthSummary where
  summary : RangeSummary
  consistency : Consistency
  blockers : List BlockerMention
deriving DecidableEq, Repr

/-- `summarizeMonth`: the full calendar month containing the anchor. -/
def summarizeMonth (a : Agent) (userId : String) (month : Nat) :
    Option MonthSummary :=
  let start := startOfMonthMs month
  let stop := endOfMonthMs month
  match summarizeRange a userId start stop with
  | none => none
  | some s =>
    some { summary := s,
           consistency := calculateConsistency a userId start stop,
           blockers := extractBlockers s.entries }

/-- `findMissingCheckins`: the reconciled student set minus the users with a
check-in in the window. -/
def findMissingCheckins (a : Agent) (start stop : Nat) : List Student :=
  let hasCheckedIn := (getCheckinsByDateRange a start stop).map (·.user_id)
  (getAllStudents a).filter fun student => !hasCheckedIn.contains student.id

/-! ## Supporting lemmas for the aggregator claims -/

theorem contains_iff_mem_str (l : List String) (s : String) :
    l.contains s = true ↔ s ∈ l := List.elem_iff

theorem daysInMonth_pos (y m : Nat) : 1 ≤ daysInMonth y m := by
  unfold daysInMonth
  split_ifs <;> omega

theorem monthLengthOf_pos (t : Nat) : 1 ≤ monthLengthOf t := by
  unfold monthLengthOf
  exact daysInMonth_pos _ _

/-- The month window's `diff('day') + 1` is exactly the number of days in
the month. -/
theorem diffDays_month (t : Nat) :
    diffDays (endOfMonthMs t) (startOfMonthMs t) + 1 = monthLengthOf t := by
  have h1 := monthLengthOf_pos t
  unfold diffDays endOfMonthMs
  have hD : msPerDay = 86400000 := rfl
  rw [hD]
  generalize startOfMonthMs t = s
  generalize monthLengthOf t = len at *
  omega

theorem mem_dedupeFirstById_id_not_seen (seen : List String) (l : List Student)
    (x : Student) (hx : x ∈ dedupeFirstById seen l) : x.id ∉ seen := by
  induction l generalizing seen with
  | nil => simp [dedupeFirstById] at hx
  | cons y ys ih =>
    unfold dedupeFirstById at hx
    split at hx
    · exact ih seen hx
    · rename_i hns
      rcases List.mem_cons.mp hx with h | h
      · subst h
        intro hs
        exact hns ((contains_iff_mem_str seen x.id).mpr hs)
      · have h2 := ih (y.id :: seen) h
        intro hs
        exact h2 (List.mem_cons_of_mem _ hs)

theorem dedupeFirstById_pairwise (seen : List String) (l : List Student) :
    (dedupeFirstById seen l).Pairwise (fun x y => x.id ≠ y.id) := by
  induction l generalizing seen with
  | nil => exact List.Pairwise.nil
  | cons y ys ih =>
    unfold dedupeFirstById
    split
    · exact ih seen
    · refine List.Pairwise.cons ?_ (ih (y.id :: seen))
      intro z hz heq
      exact mem_dedupeFirstById_id_not_seen _ _ _ hz
        (heq ▸ List.mem_cons_self _ _)

theorem dedupeFirstById_find? (seen : List String) (l : List Student)
    (idv : String) (st : Student) (hseen : idv ∉ seen)
    (hfind : l.find? (fun x => x.id == idv) = some st) :
    (dedupeFirstById seen l).find? (fun x => x.id == idv) = some st := by
  induction l generalizing seen with
  | nil => simp at hfind
  | cons y ys ih =>
    unfold dedupeFirstById
    by_cases hy : y.id = idv
    · rw [List.find?_cons_of_pos _ (by simp [hy])] at hfind
      have hns : ¬ seen.contains y.id = true := by
        rw [contains_iff_mem_str, hy]
        exact hseen
      rw [if_neg hns]
      rw [List.find?_cons_of_pos _ (by simp [hy])]
      exact hfind
    · rw [List.find?_cons_of_neg _ (by simp [hy])] at hfind
      split
      · exact ih seen hseen hfind
      · rw [List.find?_cons_of_neg _ (by simp [hy])]
        refine ih (y.id :: seen) ?_ hfind
        intro hmem
        rcases List.mem_cons.mp hmem with h | h
        · exact hy h.symm
        · exact hseen h

/-- Spec-side per-entry weight: Strong = 3, Medium = 2, Weak = 1. -/
def specQualityWeight (q : String) : ℚ :=
  if q = "Strong" then 3 else if q = "Medium" then 2 else 1

/-- Spec-side mean of the per-entry weights over a window's entries. -/
def specMeanWeight (entries : List Checkin) : ℚ :=
  (entries.map (fun c => specQualityWeight c.quality)).sum / entries.length

/-- On entries whose labels are all among the three known ones, the JS
reduce stays numeric and computes the sum of the spec weights. -/
theorem sumQualityScoresJs_valid (l : List Checkin) :
    (∀ c ∈ l, c.quality = "Strong" ∨ c.quality = "Medium" ∨ c.quality = "Weak") →
    ∃ n : Nat, sumQualityScoresJs l = some n ∧
      (n : ℚ) = (l.map (fun c => specQualityWeight c.quality)).sum := by
  unfold sumQualityScoresJs
  suffices hgen : ∀ m : Nat,
      (∀ c ∈ l, c.quality = "Strong" ∨ c.quality = "Medium" ∨ c.quality = "Weak") →
      ∃ n : Nat, l.foldl (fun acc c => jsAdd acc (qualityLookup c.quality)) (some m) = some n ∧
        (n : ℚ) = (m : ℚ) + (l.map (fun c => specQualityWeight c.quality)).sum by
    intro h
    obtain ⟨n, h1, h2⟩ := hgen 0 h
    refine ⟨n, h1, ?_⟩
    rw [h2]
    simp
  induction l with
  | nil =>
    intro m _
    exact ⟨m, rfl, by simp⟩
  | cons c cs ih =>
    intro m h
    have hc := h c (List.mem_cons_self _ _)
    have hcs : ∀ x ∈ cs, x.quality = "Strong" ∨ x.quality = "Medium" ∨ x.quality = "Weak" :=
      fun x hx => h x (List.mem_cons_of_mem _ hx)
    have hl : ∃ w : Nat, qualityLookup c.quality = .num w ∧
        (w : ℚ) = specQualityWeight c.quality := by
      rcases hc with hq | hq | hq
      · exact ⟨3, by simp [qualityLookup, hq], by simp [specQualityWeight, hq]⟩
      · exact ⟨2, by simp [qualityLookup, hq], by simp [specQualityWeight, hq]⟩
      · exact ⟨1, by simp [qualityLookup, hq], by simp [specQualityWeight, hq]⟩
    obtain ⟨w, hw1, hw2⟩ := hl
    simp only [List.foldl_cons, List.map_cons, List.sum_cons, hw1, jsAdd]
    obtain ⟨n, h1, h2⟩ := ih (m + w) hcs
    refine ⟨n, h1, ?_⟩
    rw [h2, ← hw2]
    push_cast
    ring

/-! ## Concrete example data shared by witnesses and counterexamples -/

def exCheckin : Checkin :=
  { message_id := "m1", user_id := "alice", user_name := "Alice",
    timestamp := 1000, message_content := chars "done", quality := "Strong" }

def exAgentOne : Agent := { checkins := [exCheckin], roster := [] }

def emptyAgent : Agent := { checkins := [], roster := [] }

def exRosterTwo : List Student :=
  [{ id := "alice", name := some "alice" }, { id := "bob", name := some "bob" }]

def exAgentTwo : Agent := { checkins := [exCheckin], roster := exRosterTwo }

def exCheckinBob : Checkin :=
  { message_id := "m3", user_id := "bob", user_name := "Robert",
    timestamp := 1500, message_content := chars "plan ready", quality := "Weak" }

/-- Agent whose roster declares bob as Bobby while a check-in infers him as
Robert. -/
def exAgentPrec : Agent :=
  { checkins := [exCheckinBob],
    roster := [{ id := "bob", name := some "Bobby" }] }

def exCheckinProto : Checkin :=
  { message_id := "m4", user_id := "dave", user_name := "Dave",
    timestamp := 700, message_content := chars "all good",
    quality := "toString" }

/-- Agent holding one check-in whose pre-set label is the
`Object.prototype` property name "toString". -/
def exAgentProto : Agent := { checkins := [exCheckinProto], roster := [] }

/-- Agent whose roster holds the §3-style partial object `{user_id: "u7"}`:
its normalized entry has id "u7" and an undefined name. -/
def exBadRosterAgent : Agent :=
  { checkins := [],
    roster := normalizeRoster [RosterInput.objEntry "" "u7" "" "" "" ""] }

def exCheckinExc : Checkin :=
  { message_id := "m2", user_id := "carol", user_name := "Carol",
    timestamp := 500, message_content := chars "plenty of progress",
    quality := "Excellent" }

def exRawExc : RawCheckin :=
  { message_id := "m2", user_id := "carol", user_name := "Carol",
    timestamp := 500, message_content := chars "plenty of progress",
    quality := some "Excellent" }

/-- Agent constructed from a raw check-in carrying the pre-set label
"Excellent". -/
def exAgentExc : Agent := mkAgent [exRawExc] []

/-! ## Claim theorems for the aggregator -/

/-- **C1 (counterexample to the claim as stated).** With zero check-in
entries in the month of the anchor, `summarizeMonth` returns `null` — it
does not report a non-null result carrying a consistency object. -/
theorem summarizeMonth_zero_entries_counterexample :
    summarizeMonth emptyAgent "u1" 0 = none := by decide

/-- **C1 (amended).** When the user has zero check-in entries in the
calendar month of the anchor, `summarizeMonth` returns `null` (the null
Summary case), while `calculateConsistency` itself, applied to that empty
month window, returns `days_checked_in = 0`, `period_length` equal to the
number of days in the month, and percentage 0. -/
theorem summarizeMonth_empty_window (a : Agent) (u : String) (t : Nat)
    (h : getCheckinsForUser a u (startOfMonthMs t) (endOfMonthMs t) = []) :
    summarizeMonth a u t = none ∧
    calculateConsistency a u (startOfMonthMs t) (endOfMonthMs t) =
      { days_checked_in := 0, period_length := monthLengthOf t,
        percentage := 0 } := by
  constructor
  · simp [summarizeMonth, summarizeRange, h]
  · unfold calculateConsistency
    rw [h, if_pos rfl, diffDays_month]

/-- Witness for the amended C1 at the empty agent and the anchor 0
(January 1970, 31 days). -/
theorem summarizeMonth_empty_window_witness :
    getCheckinsForUser emptyAgent "u1" (startOfMonthMs 0) (endOfMonthMs 0) = [] ∧
    (summarizeMonth emptyAgent "u1" 0 = none ∧
      calculateConsistency emptyAgent "u1" (startOfMonthMs 0) (endOfMonthMs 0) =
        { days_checked_in := 0, period_length := monthLengthOf 0,
          percentage := 0 }) :=
  ⟨by decide, summarizeMonth_empty_window emptyAgent "u1" 0 (by decide)⟩

/-- **C3.** `summarizeRange` returns `null` exactly when no entries fall in
the window; when all entries carry one of the three labels, the reported
average is the mean of the spec's per-entry weights (Strong = 3, Medium = 2,
Weak = 1) rounded to two decimals and the window label follows the
thresholds ≥ 2.5 → Strong, ≥ 1.75 → Medium, else Weak; a window holding
exactly one Strong entry yields average 3.00 and label Strong. -/
theorem summarizeRange_matches_spec (a : Agent) (u : String) (s e : Nat) :
    (getCheckinsForUser a u s e = [] → summarizeRange a u s e = none) ∧
    ((∀ c ∈ getCheckinsForUser a u s e,
        c.quality = "Strong" ∨ c.quality = "Medium" ∨ c.quality = "Weak") →
      ∀ r, summarizeRange a u s e = some r →
        r.average_quality_score =
          JsNum.num (round2 (specMeanWeight (getCheckinsForUser a u s e))) ∧
        r.quality = windowQualityLabel (specMeanWeight (getCheckinsForUser a u s e))) ∧
    (∀ c, getCheckinsForUser a u s e = [c] → c.quality = "Strong" →
      ∃ r, summarizeRange a u s e = some r ∧
        r.average_quality_score = JsNum.num 3 ∧ r.quality = "Strong") := by
  refine ⟨?_, ?_, ?_⟩
  · intro h
    unfold summarizeRange
    rw [h]
    rfl
  · intro hvalid r hr
    unfold summarizeRange at hr
    by_cases hne : getCheckinsForUser a u s e = []
    · rw [hne] at hr
      simp at hr
    · simp only [if_neg hne] at hr
      obtain ⟨n, hsum, hcast⟩ := sumQualityScoresJs_valid _ hvalid
      simp only [hsum] at hr
      have havg : (n : ℚ) / (getCheckinsForUser a u s e).length =
          specMeanWeight (getCheckinsForUser a u s e) := by
        unfold specMeanWeight
        rw [hcast]
      rw [← Option.some_inj.mp hr]
      constructor
      · show JsNum.num (round2 ((n : ℚ) / (getCheckinsForUser a u s e).length)) = _
        rw [havg]
      · show windowQualityLabel ((n : ℚ) / (getCheckinsForUser a u s e).length) = _
        rw [havg]
  · intro c hc hq
    have hsum : sumQualityScoresJs [c] = some 3 := by
      simp [sumQualityScoresJs, qualityLookup, hq, jsAdd]
    unfold summarizeRange
    rw [hc]
    simp only [hsum]
    refine ⟨_, rfl, ?_, ?_⟩
    · show JsNum.num (round2 ((3 : ℚ) / ([c] : List Checkin).length)) = JsNum.num 3
      norm_num [round2]
    · show windowQualityLabel ((3 : ℚ) / ([c] : List Checkin).length) = "Strong"
      norm_num [windowQualityLabel]

/-- Witness for C3: the agent holding exactly one Strong check-in, over the
window [0, 2000]. -/
theorem summarizeRange_matches_spec_witness :
    getCheckinsForUser exAgentOne "alice" 0 2000 = [exCheckin] ∧
    exCheckin.quality = "Strong" ∧
    (∃ r, summarizeRange exAgentOne "alice" 0 2000 = some r ∧
      r.average_quality_score = JsNum.num 3 ∧ r.quality = "Strong") :=
  ⟨by decide, by decide,
    (summarizeRange_matches_spec exAgentOne "alice" 0 2000).2.2 exCheckin
      (by decide) (by decide)⟩

/-- **C6.** A student reported missing for a window never has a check-in
inside that window: the id sets are disjoint. -/
theorem missing_disjoint_from_window (a : Agent) (s e : Nat)
    (x : Student) (c : Checkin)
    (hx : x ∈ findMissingCheckins a s e)
    (hc : c ∈ getCheckinsByDateRange a s e) :
    x.id ≠ c.user_id := by
  intro heq
  unfold findMissingCheckins at hx
  obtain ⟨-, hx2⟩ := List.mem_filter.mp hx
  rw [Bool.not_eq_true'] at hx2
  have hmem : x.id ∈ (getCheckinsByDateRange a s e).map (·.user_id) := by
    rw [heq]
    exact List.mem_map_of_mem _ hc
  rw [(contains_iff_mem_str _ _).mpr hmem] at hx2
  simp at hx2

/-- Witness for C6: bob is missing from the window [0, 2000] that holds
alice's check-in. -/
theorem missing_disjoint_from_window_witness :
    (⟨"bob", some "bob"⟩ : Student) ∈ findMissingCheckins exAgentTwo 0 2000 ∧
    exCheckin ∈ getCheckinsByDateRange exAgentTwo 0 2000 ∧
    (⟨"bob", some "bob"⟩ : Student).id ≠ exCheckin.user_id :=
  ⟨by decide, by decide,
    missing_disjoint_from_window exAgentTwo 0 2000 _ _ (by decide) (by decide)⟩

/-- **C7 (counterexample to the claim as stated).** A zero-length window is
not treated as empty: the window [1000, 1000] contains the check-in
timestamped exactly 1000. -/
theorem zero_length_window_counterexample :
    getCheckinsByDateRange exAgentOne 1000 1000 ≠ [] := by decide

/-- **C7 (amended).** When the window end is strictly before the window
start, the filter yields the empty set and the range summary is `null`,
never an error; a zero-length window instead yields exactly the check-ins
timestamped at that instant. -/
theorem inverted_window_empty (a : Agent) (u : String) (s e : Nat)
    (h : e < s) :
    getCheckinsByDateRange a s e = [] ∧ summarizeRange a u s e = none := by
  have hfilter : getCheckinsByDateRange a s e = [] := by
    unfold getCheckinsByDateRange
    rw [List.filter_eq_nil_iff]
    intro c _
    simp only [Bool.and_eq_true, decide_eq_true_eq, not_and]
    omega
  refine ⟨hfilter, ?_⟩
  unfold summarizeRange getCheckinsForUser
  rw [hfilter]
  rfl

/-- Witness for the amended C7 at the inverted window [10, 5]. -/
theorem inverted_window_empty_witness :
    (5 : Nat) < 10 ∧
    (getCheckinsByDateRange exAgentOne 10 5 = [] ∧
      summarizeRange exAgentOne "alice" 10 5 = none) :=
  ⟨by decide, inverted_window_empty exAgentOne "alice" 10 5 (by decide)⟩

/-- **C8.** The combined student list never holds two entries with the same
id, and an id declared in the (normalized) roster is resolved to the first
roster entry carrying it — the roster-declared name wins over any user
inferred from check-ins. -/
theorem getAllStudents_dedup_roster_precedence (a : Agent) :
    (getAllStudents a).Pairwise (fun x y => x.id ≠ y.id) ∧
    ∀ (idv : String) (st : Student),
      a.roster.find? (fun x => x.id == idv) = some st →
      (getAllStudents a).find? (fun x => x.id == idv) = some st := by
  constructor
  · exact dedupeFirstById_pairwise [] _
  · intro idv st hfind
    unfold getAllStudents
    refine dedupeFirstById_find? [] _ idv st (by simp) ?_
    rw [List.find?_append, hfind]
    rfl

/-- Witness for C8: the roster entry ⟨bob, Bobby⟩ shares its id with a user
inferred from a check-in under the name Robert; the roster entry is kept. -/
theorem getAllStudents_dedup_roster_precedence_witness :
    exAgentPrec.roster.find? (fun x => x.id == "bob") =
      some ⟨"bob", some "Bobby"⟩ ∧
    (getAllStudents exAgentPrec).find? (fun x => x.id == "bob") =
      some ⟨"bob", some "Bobby"⟩ :=
  ⟨by decide,
    (getAllStudents_dedup_roster_precedence exAgentPrec).2 "bob"
      ⟨"bob", some "Bobby"⟩ (by decide)⟩

/-- **C10 (counterexample to the claim as stated).** The claim quantifies
over every pre-set label outside {Strong, Medium, Weak}, but for a label
that is an `Object.prototype` property name — here "toString" —
`QUALITY_TO_SCORE[label] || 0` yields a truthy inherited function, the
reduce's accumulator becomes a non-numeric string and the average becomes
NaN, not 0. -/
theorem unknown_label_zero_weight_counterexample :
    (summarizeRange exAgentProto "dave" 0 1000).map
        (fun r => r.average_quality_score) = some JsNum.nan ∧
    JsNum.nan ≠ JsNum.num 0 := by
  exact ⟨by decide, by decide⟩

/-- **C10 (amended).** A pre-set quality label outside the three known
labels passes through `normalizeQuality` unchanged; when the label is also
not an `Object.prototype` property name, `QUALITY_TO_SCORE[label] || 0`
contributes weight 0 (not the Weak weight 1), so a window holding one such
entry averages 0, below 1; a prototype property name instead poisons the
sum and the average is NaN. -/
theorem unknown_label_passthrough_zero_weight (label : String)
    (content : List Char)
    (h0 : label ≠ "") (hS : label ≠ "Strong") (hM : label ≠ "Medium")
    (hW : label ≠ "Weak") (hP : protoKeys.contains label = false)
    (a : Agent) (u : String) (s e : Nat) (c : Checkin)
    (hc : getCheckinsForUser a u s e = [c]) (hq : c.quality = label) :
    normalizeQuality (some label) content = label ∧
    qualityLookup label = .num 0 ∧
    (∃ r, summarizeRange a u s e = some r ∧
      ∃ q, r.average_quality_score = JsNum.num q ∧ q = 0 ∧ q < 1) := by
  have hts : qualityLookup label = .num 0 := by
    unfold qualityLookup
    rw [if_neg hS, if_neg hM, if_neg hW, hP]
    rfl
  refine ⟨?_, hts, ?_⟩
  · simp only [normalizeQuality]
    rw [if_pos h0]
  · have hsum : sumQualityScoresJs [c] = some 0 := by
      simp [sumQualityScoresJs, hq, hts, jsAdd]
    unfold summarizeRange
    rw [hc]
    simp only [hsum]
    refine ⟨_, rfl, ?_⟩
    refine ⟨round2 ((0 : ℚ) / ([c] : List Checkin).length), rfl, ?_, ?_⟩
    · norm_num [round2]
    · norm_num [round2]

/-- Witness for the amended C10: the constructed agent keeps the pre-set
label "Excellent" and the singleton window averages 0. -/
theorem unknown_label_passthrough_zero_weight_witness :
    getCheckinsForUser exAgentExc "carol" 0 1000 = [exCheckinExc] ∧
    exCheckinExc.quality = "Excellent" ∧
    (normalizeQuality (some "Excellent") (chars "plenty of progress") =
        "Excellent" ∧
      qualityLookup "Excellent" = .num 0 ∧
      (∃ r, summarizeRange exAgentExc "carol" 0 1000 = some r ∧
        ∃ q, r.average_quality_score = JsNum.num q ∧ q = 0 ∧ q < 1)) :=
  ⟨by decide, by decide,
    unknown_label_passthrough_zero_weight "Excellent"
      (chars "plenty of progress") (by decide) (by decide) (by decide)
      (by decide) (by decide) exAgentExc "carol" 0 1000 exCheckinExc
      (by decide) (by decide)⟩

/-! ## Dashboard generator (`generateDashboard`) -/

/-- A timeframe descriptor.  `ttype` models `timeframe.type` with `""` for
the falsy/absent values; the anchor fields are instants with `none` for
absent/falsy values. -/
structure Timeframe where
  ttype : String
  date : Option Nat
  start : Option Nat
  month : Option Nat
deriving DecidableEq, Repr

/-- The three dashboard shapes produced by `generateDashboard`. -/
inductive Dashboard where
  | daily (user : String) (date : String) (summary : Option DailySummary)
  | weekly (user : String) (week_start week_end : String)
      (summary : Option WeekSummary)
  | monthly (user : String) (month : String) (summary : Option MonthSummary)
deriving DecidableEq, Repr

/-- `s.toLowerCase()`. -/
def lowerString (s : String) : String := String.mk (lowerChars (chars s))

/-- `generateDashboard`: hard validation failures become `Except.error`
(the JS `throw`), every other input produces a `Dashboard`. -/
def generateDashboard (a : Agent) (today : Nat) (userId userName : String)
    (timeframe : Option Timeframe) : Except String Dashboard :=
  if userId = "" then .error "userId is required to generate a dashboard."
  else
    match timeframe with
    | none => .error "A timeframe with a type is required (daily, weekly, monthly)."
    | some tf =>
      if tf.ttype = "" then
        .error "A timeframe with a type is required (daily, weekly, monthly)."
      else
        let ty := lowerString tf.ttype
        if ty = "daily" then
          match tf.date.or tf.start with
          | none => .error "Daily dashboards require a date value."
          | some d =>
            .ok (.daily userName (formatIsoDate d) (summarizeDaily a userId d))
        else if ty = "weekly" then
          let start := match tf.start.or tf.date with
            | some v => startOfIsoWeekMs v
            | none => startOfIsoWeekMs today
          .ok (.weekly userName (formatIsoDate start)
            (formatIsoDate (start + 6 * msPerDay)) (summarizeWeek a userId start))
        else if ty = "monthly" then
          let monthValue := ((tf.month.or tf.start).or tf.date).getD (startOfDayMs today)
          .ok (.monthly userName (formatMonthYear monthValue)
            (summarizeMonth a userId monthValue))
        else .error ("Unsupported timeframe type: " ++ tf.ttype)

/-- The validation-failure condition described by the claim: missing user
id, missing timeframe type, a daily timeframe without date or start, or an
unsupported timeframe type. -/
def dashboardErrorCond (userId : String) (tf : Option Timeframe) : Prop :=
  userId = "" ∨ tf = none ∨ ∃ t, tf = some t ∧
    (t.ttype = "" ∨
      (lowerString t.ttype = "daily" ∧ t.date = none ∧ t.start = none) ∨
      (lowerString t.ttype ≠ "daily" ∧ lowerString t.ttype ≠ "weekly" ∧
        lowerString t.ttype ≠ "monthly"))

/-- **C4.** `generateDashboard` raises an error exactly when the user id is
missing, the timeframe has no type, the type is daily and neither a date
nor a start value is present, or the (lower-cased) type is none of
daily/weekly/monthly; in every other case it returns a `Dashboard` without
raising. -/
theorem generateDashboard_error_iff (a : Agent) (today : Nat)
    (userId userName : String) (tf : Option Timeframe) :
    ((∃ msg, generateDashboard a today userId userName tf = .error msg) ↔
      dashboardErrorCond userId tf) ∧
    ((∃ d, generateDashboard a today userId userName tf = .ok d) ↔
      ¬ dashboardErrorCond userId tf) := by
  have main : (∃ msg, generateDashboard a today userId userName tf = .error msg) ↔
      dashboardErrorCond userId tf := by
    unfold generateDashboard dashboardErrorCond
    by_cases hu : userId = ""
    · simp [hu]
    · rw [if_neg hu]
      cases tf with
      | none => simp [hu]
      | some t =>
        by_cases hty : t.ttype = ""
        · simp [hu, hty]
        · by_cases hd : lowerString t.ttype = "daily"
          · cases hds : t.date.or t.start with
            | none =>
              have hboth : t.date = none ∧ t.start = none := by
                cases td : t.date <;> cases ts : t.start <;>
                  simp_all [Option.or]
              simp [hu, hty, hd, hds, hboth.1, hboth.2]
            | some d =>
              have hnotboth : ¬ (t.date = none ∧ t.start = none) := by
                rintro ⟨h1, h2⟩
                rw [h1, h2] at hds
                simp [Option.or] at hds
              simp [hu, hty, hd, hds, hnotboth]
          · by_cases hw : lowerString t.ttype = "weekly"
            · simp [hu, hty, hd, hw]
            · by_cases hm : lowerString t.ttype = "monthly"
              · simp [hu, hty, hd, hw, hm]
              · simp [hu, hty, hd, hw, hm]
  refine ⟨main, ?_⟩
  rw [← main]
  cases h : generateDashboard a today userId userName tf with
  | error e => simp
  | ok d => simp

/-! ## Question interpreter (`answerQuestion` and its helpers)

The regular expressions of the source are embedded as deterministic
scanning functions implementing leftmost-match semantics (with lazy or
greedy capture as each pattern requires). -/

/-- Numeric value of an ASCII digit. -/
def digitVal (c : Char) : Nat := c.toNat - '0'.toNat

/-- Value of a digit string (`Number(match[1])` on a digit capture). -/
def natOfDigits (l : List Char) : Nat := l.foldl (fun n c => n * 10 + digitVal c) 0

/-- Case-insensitive prefix match. -/
def ciStartsWith : List Char → List Char → Bool
  | [], _ => true
  | _ :: _, [] => false
  | p :: ps, c :: cs => lowerChar p == lowerChar c && ciStartsWith ps cs

/-- The lazy capture `([^?]+?)` followed by a literal stop pattern: extend a
non-empty, `?`-free capture one character at a time until the stop pattern
matches (case-insensitively) right after it. -/
def lazyCapAux (stopPat : List Char) : List Char → List Char →
    Option (List Char × List Char)
  | acc, [] =>
    if ciStartsWith stopPat [] then some (acc.reverse, []) else none
  | acc, d :: ds =>
    if ciStartsWith stopPat (d :: ds) then
      some (acc.reverse, (d :: ds).drop stopPat.length)
    else if d == '?' then none
    else lazyCapAux stopPat (d :: acc) ds

/-- Entry point of the lazy capture: the capture needs at least one
character. -/
def lazyCap (stopPat : List Char) : List Char → Option (List Char × List Char)
  | [] => none
  | c :: cs => if c == '?' then none else lazyCapAux stopPat [c] cs

/-- `question.match(/quality of ([^?]+?)'s check-in/i)`: leftmost position
where the literal matches and the lazy capture reaches the stop literal. -/
def matchQualityName : List Char → Option (List Char)
  | [] => none
  | c :: cs =>
    if ciStartsWith (chars "quality of ") (c :: cs) then
      match lazyCap (chars "\x27s check-in") ((c :: cs).drop 11) with
      | some (cap, _) => some cap
      | none => matchQualityName cs
    else matchQualityName cs

/-- `question.match(/on ([^?]+?)(\?|$)/i)`: after the leftmost viable
`"on "`, the capture runs to the first `?` or the end of the string (the
lazy capture and the greedy one coincide because `?` cannot occur inside
it); it must be non-empty. -/
def matchOnDate : List Char → Option (List Char)
  | [] => none
  | c :: cs =>
    if ciStartsWith (chars "on ") (c :: cs) then
      let cap := ((c :: cs).drop 3).takeWhile (fun d => d != '?')
      if cap.isEmpty then matchOnDate cs else some cap
    else matchOnDate cs

/-- `lowerQuestion.match(/past (\d+) day/)`: a literal `"past "`, a maximal
non-empty digit run, then the literal `" day"`. -/
def matchPastNDay : List Char → Option Nat
  | [] => none
  | c :: cs =>
    if startsWithChars (chars "past ") (c :: cs) then
      let rest := (c :: cs).drop 5
      let digits := rest.takeWhile isDigitCh
      if digits.isEmpty then matchPastNDay cs
      else if startsWithChars (chars " day") (rest.drop digits.length) then
        some (natOfDigits digits)
      else matchPastNDay cs
    else matchPastNDay cs

/-- `question.match(/between ([^ ]+) and ([^?]+)/i)`: a literal
`"between "`, a maximal non-empty space-free token, the literal `" and "`,
then a maximal non-empty `?`-free capture. -/
def matchBetween : List Char → Option (List Char × List Char)
  | [] => none
  | c :: cs =>
    if ciStartsWith (chars "between ") (c :: cs) then
      let rest := (c :: cs).drop 8
      let tok1 := rest.takeWhile (fun d => d != ' ')
      if tok1.isEmpty then matchBetween cs
      else if ciStartsWith (chars " and ") (rest.drop tok1.length) then
        let tok2 := ((rest.drop tok1.length).drop 5).takeWhile (fun d => d != '?')
        if tok2.isEmpty then matchBetween cs else some (tok1, tok2)
      else matchBetween cs
    else matchBetween cs

/-- `token.replace(/\.$/, '')`: strip one trailing period. -/
def stripTrailingDot (l : List Char) : List Char :=
  match l.reverse with
  | '.' :: rest => rest.reverse
  | _ => l

/-- Strict `YYYY-MM-DD` parse (`dayjs(token, ISO_DATE, true)`): exactly ten
characters in digit/dash positions denoting a real calendar date; the
result is that date's midnight instant. -/
def parseIsoDateStrict (t : List Char) : Option Nat :=
  match t with
  | [y1, y2, y3, y4, s1, m1, m2, s2, d1, d2] =>
    if isDigitCh y1 && isDigitCh y2 && isDigitCh y3 && isDigitCh y4 &&
        s1 == '-' && isDigitCh m1 && isDigitCh m2 && s2 == '-' &&
        isDigitCh d1 && isDigitCh d2 then
      let y := digitVal y1 * 1000 + digitVal y2 * 100 + digitVal y3 * 10 + digitVal y4
      let m := digitVal m1 * 10 + digitVal m2
      let d := digitVal d1 * 10 + digitVal d2
      if 1 ≤ m && m ≤ 12 && 1 ≤ d && d ≤ daysInMonth y m then
        some (daysFromCivil y m d * msPerDay)
      else none
    else none
  | _ => none

/-- The lower-cased weekday names, Monday first. -/
def weekdayNames : List (List Char) :=
  [chars "monday", chars "tuesday", chars "wednesday", chars "thursday",
   chars "friday", chars "saturday", chars "sunday"]

/-- `parseDateToken`: trim, strip a trailing period, then try a strict ISO
date, a weekday name (resolved against `referenceStart` or the current ISO
week), or `yesterday`/`today`/`tomorrow`; `none` models the `null` result
for unrecognized tokens. -/
def parseDateToken (today : Nat) (token : List Char)
    (referenceStart : Option Nat) : Option Nat :=
  let trimmed := stripTrailingDot (trimChars token)
  let lower := lowerChars trimmed
  match parseIsoDateStrict trimmed with
  | some v => some v
  | none =>
    match weekdayNames.findIdx? (fun w => w == lower) with
    | some i =>
      some (referenceStart.getD (startOfIsoWeekMs today) + i * msPerDay)
    | none =>
      if lower == chars "yesterday" then some (today - msPerDay)
      else if lower == chars "today" then some today
      else if lower == chars "tomorrow" then some (today + msPerDay)
      else none

structure RangeItem where
  date : String
  message : List Char
  quality : String
deriving DecidableEq, Repr

/-- A progress ranking row; the student name is the possibly-undefined
`Student.name`. -/
structure ProgressRow where
  student : Option String
  average_quality_score : ℚ
  quality : String
  checkins : Nat
deriving DecidableEq, Repr

/-- `summary?.average_quality_score || 0`: NaN and 0 are falsy, any other
number is kept. -/
def jsNumOrZero : JsNum → ℚ
  | .nan => 0
  | .num q => q

/-- The response payloads of the interpreter; plain `{question, answer}`
objects are `softAnswer` for the intent-specific explanatory replies and
`fallback` for the unrecognized-question reply.  The `missing` name lists
may hold `none` (an undefined student name rendered as-is by JS). -/
inductive AgentResponse where
  | yesterdayReport (question : String) (date : String)
      (checked_in : List String) (missing : List (Option String))
      (note : Option String)
  | missingReport (question : String) (start stop : String)
      (missing : List (Option String)) (note : Option String)
  | softAnswer (question : String) (answer : String)
  | qualityReport (question : String) (answer : String) (details : DailySummary)
  | progressReport (question : String) (week_start week_end : String)
      (top_students : List ProgressRow)
  | rangeListing (question : String) (start stop : String)
      (students : List (String × List RangeItem))
  | blockersReport (question : String) (week_start week_end : String)
      (blockers : List BlockerMention)
  | fallback (question : String) (answer : String)
deriving DecidableEq, Repr

/-- A JS `Map.set`: overwrite the value in place, keep first-insertion
order, append new keys. -/
def upsertAssoc (k v : String) : List (String × String) →
    List (String × String)
  | [] => [(k, v)]
  | (k0, v0) :: rest =>
    if k0 == k then (k0, v) :: rest else (k0, v0) :: upsertAssoc k v rest

/-- Grouping into an object keyed by name: append to the existing bucket or
create a new one at the end. -/
def upsertListAssoc (k : String) (v : RangeItem) :
    List (String × List RangeItem) → List (String × List RangeItem)
  | [] => [(k, [v])]
  | (k0, vs) :: rest =>
    if k0 == k then (k0, vs ++ [v]) :: rest
    else (k0, vs) :: upsertListAssoc k v rest

/-- `answerYesterday`. -/
def answerYesterday (a : Agent) (today : Nat) : AgentResponse :=
  let dayStart := startOfDayMs (today - msPerDay)
  let dayEnd := dayStart + msPerDay - 1
  let entries := getCheckinsByDateRange a dayStart dayEnd
  let checkinsByUser :=
    entries.foldl (fun m e => upsertAssoc e.user_id e.user_name m) []
  let missing := findMissingCheckins a dayStart dayEnd
  let rosterProvided := !a.roster.isEmpty
  .yesterdayReport "Who checked in yesterday and who did not?"
    (formatIsoDate dayStart)
    (checkinsByUser.map (·.2))
    (if rosterProvided then missing.map (·.name) else [])
    (if rosterProvided then none
      else some "Provide a roster list to identify missing check-ins.")

/-- `answerMissingRecent` (receives the lower-cased question). -/
def answerMissingRecent (a : Agent) (today : Nat) (lowerQuestion : List Char) :
    AgentResponse :=
  let days := (matchPastNDay lowerQuestion).getD 3
  let stop := endOfDayMs today
  let start := (dayNumber today + 1 - days) * msPerDay
  let missing := findMissingCheckins a start stop
  let rosterProvided := !a.roster.isEmpty
  .missingReport "Students missing check-ins"
    (formatIsoDate start) (formatIsoDate stop)
    (if rosterProvided then missing.map (·.name) else [])
    (if rosterProvided then none
      else some "Provide a roster list to identify missing check-ins.")

/-- `answerQualityQuestion`; `.error` propagates the TypeError
`getUserByName` can raise on an undefined student name. -/
def answerQualityQuestion (a : Agent) (today : Nat) (question : String) :
    Except String AgentResponse :=
  match matchQualityName (chars question) with
  | none =>
    .ok (.softAnswer question
      "Please specify the student name whose check-in quality you want to review.")
  | some nameCap =>
    let studentName := String.mk (trimChars nameCap)
    match getUserByName a studentName with
    | .error e => .error e
    | .ok none =>
      .ok (.softAnswer question
        ("I could not find a student named " ++ studentName ++ "."))
    | .ok (some user) =>
      let dateOpt := match matchOnDate (chars question) with
        | some tok => parseDateToken today tok none
        | none => some (startOfDayMs today)
      match dateOpt with
      | none =>
        .ok (.softAnswer question "I was unable to interpret the requested date.")
      | some date =>
        match summarizeDaily a user.id date with
        | none =>
          .ok (.softAnswer question
            (studentName ++ " did not check in on " ++ formatIsoDate date ++ "."))
        | some daily =>
          .ok (.qualityReport question
            (studentName ++ "\x27s check-in on " ++ daily.date ++
              " was classified as " ++ daily.quality ++ ".") daily)

/-- `answerProgressThisWeek`. -/
def answerProgressThisWeek (a : Agent) (today : Nat) : AgentResponse :=
  let start := startOfIsoWeekMs today
  let stop := endOfDayMs (start + 6 * msPerDay)
  let rankings := ((getAllStudents a).map (fun student =>
    match summarizeRange a student.id start stop with
    | some summary =>
      ({ student := student.name,
         average_quality_score := jsNumOrZero summary.average_quality_score,
         quality := summary.quality,
         checkins := summary.total_checkins } : ProgressRow)
    | none =>
      ({ student := student.name, average_quality_score := 0,
         quality := "No Data", checkins := 0 } : ProgressRow))).filter
    (fun r => r.checkins > 0)
  let sorted := rankings.mergeSort
    (fun x y => y.average_quality_score ≤ x.average_quality_score)
  .progressReport "Which students made the most substantial progress this week?"
    (formatIsoDate start) (formatIsoDate stop) (sorted.take 5)

/-- `answerDateRangeListing`. -/
def answerDateRangeListing (a : Agent) (today : Nat) (question : String) :
    AgentResponse :=
  match matchBetween (chars question) with
  | none =>
    .softAnswer question
      "Please specify the start and end dates for the query (e.g., between Monday and Wednesday)."
  | some (startToken, endToken) =>
    let startOpt := parseDateToken today startToken none
    let endOpt := parseDateToken today endToken startOpt
    match startOpt, endOpt with
    | some s, some e =>
      let entries := getCheckinsByDateRange a (startOfDayMs s) (endOfDayMs e)
      let grouped := entries.foldl (fun m entry =>
        upsertListAssoc entry.user_name
          { date := formatIsoDate entry.timestamp,
            message := entry.message_content, quality := entry.quality } m) []
      .rangeListing question (formatIsoDate s) (formatIsoDate e) grouped
    | _, _ =>
      .softAnswer question "I was unable to interpret the provided date range."

/-- `answerBlockersThisWeek`. -/
def answerBlockersThisWeek (a : Agent) (today : Nat) : AgentResponse :=
  let start := startOfIsoWeekMs today
  let stop := endOfDayMs (start + 6 * msPerDay)
  .blockersReport "What were the key blockers mentioned this week?"
    (formatIsoDate start) (formatIsoDate stop)
    (extractBlockers (getCheckinsByDateRange a start stop))

/-- The fixed fallback reply listing the supported capabilities. -/
def fallbackAnswer : String :=
  "I\x27m not sure how to answer that yet, but I can help with check-in summaries, quality, blockers, and attendance."

/-- `answerQuestion`: ordered, first-match-wins substring dispatch over the
lower-cased question.  The result is `Except` because the quality intent
can raise a TypeError on an undefined roster name; every other branch is
total. -/
def answerQuestion (a : Agent) (today : Nat) (question : String) :
    Except String AgentResponse :=
  let lower := lowerChars (chars question)
  if containsSub (chars "who checked in yesterday") lower then
    .ok (answerYesterday a today)
  else if containsSub (chars "who didn\x27t") lower ||
      containsSub (chars "who did not") lower then
    .ok (answerMissingRecent a today lower)
  else if containsSub (chars "quality of") lower then
    answerQualityQuestion a today question
  else if containsSub (chars "substantial progress") lower then
    .ok (answerProgressThisWeek a today)
  else if containsSub (chars "between") lower &&
      containsSub (chars "checked in") lower then
    .ok (answerDateRangeListing a today question)
  else if containsSub (chars "key blockers") lower ||
      containsSub (chars "blockers") lower then
    .ok (answerBlockersThisWeek a today)
  else .ok (.fallback question fallbackAnswer)

/-- No intent trigger fires for this question (all the ordered substring
checks of `answerQuestion` fail on the lower-cased text). -/
def noIntentMatches (q : List Char) : Prop :=
  containsSub (chars "who checked in yesterday") (lowerChars q) = false ∧
  containsSub (chars "who didn\x27t") (lowerChars q) = false ∧
  containsSub (chars "who did not") (lowerChars q) = false ∧
  containsSub (chars "quality of") (lowerChars q) = false ∧
  containsSub (chars "substantial progress") (lowerChars q) = false ∧
  (containsSub (chars "between") (lowerChars q) = false ∨
    containsSub (chars "checked in") (lowerChars q) = false) ∧
  containsSub (chars "key blockers") (lowerChars q) = false ∧
  containsSub (chars "blockers") (lowerChars q) = false

/-- The quality intent is the first trigger that fires. -/
def qualityIntentSelected (q : List Char) : Prop :=
  containsSub (chars "who checked in yesterday") (lowerChars q) = false ∧
  containsSub (chars "who didn\x27t") (lowerChars q) = false ∧
  containsSub (chars "who did not") (lowerChars q) = false ∧
  containsSub (chars "quality of") (lowerChars q) = true

theorem findUserByNameScan_ok (normalized : List Char) (l : List Student)
    (h : ∀ st ∈ l, st.name ≠ none) :
    ∃ r, findUserByNameScan normalized l = .ok r := by
  induction l with
  | nil => exact ⟨none, rfl⟩
  | cons u us ih =>
    have hu := h u (List.mem_cons_self _ _)
    cases hn : u.name with
    | none => exact absurd hn hu
    | some nm =>
      unfold findUserByNameScan
      simp only [hn]
      split
      · exact ⟨_, rfl⟩
      · exact ih (fun st hst => h st (List.mem_cons_of_mem _ hst))

theorem getUserByName_ok (a : Agent) (name : String)
    (hnames : ∀ st ∈ getAllStudents a, st.name ≠ none) :
    ∃ r, getUserByName a name = .ok r :=
  findUserByNameScan_ok _ _ hnames

theorem answerQualityQuestion_ok (a : Agent) (today : Nat) (question : String)
    (hnames : ∀ st ∈ getAllStudents a, st.name ≠ none) :
    ∃ resp, answerQualityQuestion a today question = .ok resp := by
  unfold answerQualityQuestion
  cases hq : matchQualityName (chars question) with
  | none => exact ⟨_, rfl⟩
  | some cap =>
    obtain ⟨r, hr⟩ := getUserByName_ok a (String.mk (trimChars cap)) hnames
    simp only [hr]
    cases r with
    | none => exact ⟨_, rfl⟩
    | some user =>
      cases hd : matchOnDate (chars question) with
      | none =>
        simp only [hd]
        cases hsd : summarizeDaily a user.id (startOfDayMs today) with
        | none => simp only [hsd]; exact ⟨_, rfl⟩
        | some daily => simp only [hsd]; exact ⟨_, rfl⟩
      | some tok =>
        simp only [hd]
        cases hp : parseDateToken today tok none with
        | none => simp only [hp]; exact ⟨_, rfl⟩
        | some date =>
          simp only [hp]
          cases hsd : summarizeDaily a user.id date with
          | none => simp only [hsd]; exact ⟨_, rfl⟩
          | some daily => simp only [hsd]; exact ⟨_, rfl⟩

/-- **C5 (counterexample to the claim as stated).** `answerQuestion` can
throw even when every check-in text and name field is a well-formed string:
with a roster holding the partial object `{user_id: "u7"}` — whose
normalized entry has an undefined name — a quality-of question reaches
`user.name.toLowerCase()` and raises a TypeError. -/
theorem answerQuestion_throws_counterexample :
    answerQuestion exBadRosterAgent 0
        "What is the quality of Zoe\x27s check-in on Monday?" =
      .error nameTypeError := rfl

/-- **C5 (amended).** When every reconciled student has a defined name (in
particular whenever each roster object entry carries at least one truthy
name-ish field), `answerQuestion` never throws: every question yields an
`.ok` payload; an unrecognized question yields the capability-listing
fallback rather than an error; and the quality intent degrades to
explanatory soft responses when it cannot extract a name, cannot resolve
the named student, or cannot parse the requested date.  Without the name
hypothesis the quality intent can raise a TypeError. -/
theorem answerQuestion_soft_responses (a : Agent) (today : Nat)
    (question : String)
    (hnames : ∀ st ∈ getAllStudents a, st.name ≠ none) :
    (∃ resp, answerQuestion a today question = .ok resp) ∧
    (noIntentMatches (chars question) →
      answerQuestion a today question = .ok (.fallback question fallbackAnswer)) ∧
    (qualityIntentSelected (chars question) →
      (matchQualityName (chars question) = none →
        answerQuestion a today question = .ok (.softAnswer question
          "Please specify the student name whose check-in quality you want to review.")) ∧
      (∀ cap, matchQualityName (chars question) = some cap →
        getUserByName a (String.mk (trimChars cap)) = .ok none →
        answerQuestion a today question = .ok (.softAnswer question
          ("I could not find a student named " ++ String.mk (trimChars cap) ++ "."))) ∧
      (∀ cap tok u, matchQualityName (chars question) = some cap →
        getUserByName a (String.mk (trimChars cap)) = .ok (some u) →
        matchOnDate (chars question) = some tok →
        parseDateToken today tok none = none →
        answerQuestion a today question = .ok (.softAnswer question
          "I was unable to interpret the requested date."))) := by
  refine ⟨?_, ?_, ?_⟩
  · unfold answerQuestion
    dsimp only
    split_ifs
    · exact ⟨_, rfl⟩
    · exact ⟨_, rfl⟩
    · exact answerQualityQuestion_ok a today question hnames
    · exact ⟨_, rfl⟩
    · exact ⟨_, rfl⟩
    · exact ⟨_, rfl⟩
    · exact ⟨_, rfl⟩
  · rintro ⟨h1, h2, h3, h4, h5, h6, h7, h8⟩
    unfold answerQuestion
    rcases h6 with h6 | h6 <;>
      simp [h1, h2, h3, h4, h5, h6, h7, h8]
  · rintro ⟨h1, h2, h3, h4⟩
    have hdispatch : answerQuestion a today question =
        answerQualityQuestion a today question := by
      unfold answerQuestion
      simp [h1, h2, h3, h4]
    refine ⟨?_, ?_, ?_⟩
    · intro hname
      rw [hdispatch]
      unfold answerQualityQuestion
      simp [hname]
    · intro cap hcap huser
      rw [hdispatch]
      unfold answerQualityQuestion
      simp [hcap, huser]
    · rintro cap tok u hcap hu htok hparse
      rw [hdispatch]
      unfold answerQualityQuestion
      simp [hcap, hu, htok, hparse]

/-- Witness for the amended C5: an agent whose students are all named, and
the question "hello there", which matches no intent and produces the
fallback payload. -/
theorem answerQuestion_soft_responses_witness :
    (∀ st ∈ getAllStudents exAgentTwo, st.name ≠ none) ∧
    noIntentMatches (chars "hello there") ∧
    answerQuestion exAgentTwo 0 "hello there" =
      .ok (.fallback "hello there" fallbackAnswer) :=
  ⟨by decide, by unfold noIntentMatches; decide,
    (answerQuestion_soft_responses exAgentTwo 0 "hello there"
        (by decide)).2.1
      (by unfold noIntentMatches; decide)⟩

end SlackCheckins
